import Mathlib

/-!
Shallow embedding of the typing-test scoring engine (`typing_test.py`):
the `TypingTest` session state, the keystroke processor, and the derived
statistics (duration, WPM, accuracy, scores, top missed keys), together
with theorems settling the specification claims about them.

Python strings are modelled as `List Char`, Python's unbounded `int`
counters as `ℤ`, and Python `float` arithmetic as `ℚ` with `round(x, n)`
modelled by exact banker's rounding (round half to even) on rationals.
Dictionaries (`key_errors`) are modelled as insertion-ordered association
lists, matching Python's dict iteration order.
-/

/-- Python's `round` on a rational: round half to even (banker's rounding). -/
def pyRound (q : ℚ) : ℤ :=
  let f := ⌊q⌋
  let r := q - (f : ℚ)
  if r < 1 / 2 then f
  else if 1 / 2 < r then f + 1
  else if f % 2 = 0 then f else f + 1

/-- Python's `round(x, 1)`: round to one decimal place. -/
def round1 (q : ℚ) : ℚ := (pyRound (q * 10) : ℚ) / 10

/-- Python truthiness of an optional float: `None` and `0.0` are falsy. -/
def optTruthy (o : Option ℚ) : Bool :=
  match o with
  | none => false
  | some x => decide (x ≠ 0)

/-- Auxiliary for `pySplit`: walks the text with an accumulator holding the
current (reversed) in-progress word. -/
def pySplitGo : List Char → List Char → List (List Char)
  | [], acc => if acc = [] then [] else [acc.reverse]
  | c :: cs, acc =>
    if c.isWhitespace then
      (if acc = [] then [] else [acc.reverse]) ++ pySplitGo cs []
    else
      pySplitGo cs (c :: acc)

/-- Python's `str.split()` with no arguments: split on runs of whitespace,
discarding empty pieces. -/
def pySplit (text : List Char) : List (List Char) :=
  pySplitGo text []

/-- Python dict lookup `d.get(c, 0)`. -/
def lookupKey : List (Char × Nat) → Char → Nat
  | [], _ => 0
  | (k, v) :: rest, c => if k = c then v else lookupKey rest c

/-- Python `d[c] = d.get(c, 0) + 1` on an insertion-ordered dict: increment
in place if the key is present, else append at the end. -/
def bumpKey : List (Char × Nat) → Char → List (Char × Nat)
  | [], c => [(c, 1)]
  | (k, v) :: rest, c =>
    if k = c then (k, v + 1) :: rest else (k, v) :: bumpKey rest c

/-- `' '.join(words)` on the modelled strings. -/
def joinSpace : List (List Char) → List Char
  | [] => []
  | [w] => w
  | w :: ws => w ++ ' ' :: joinSpace ws

/-- Ordering used by `get_top_missed_keys`: descending by error count. -/
def countGE (a b : Char × Nat) : Prop := b.2 ≤ a.2

instance : DecidableRel countGE := fun a b => Nat.decLe b.2 a.2

instance : IsTotal (Char × Nat) countGE :=
  ⟨fun a b => le_total b.2 a.2⟩

instance : IsTrans (Char × Nat) countGE :=
  ⟨fun _ _ _ h1 h2 => le_trans h2 h1⟩

/-- Python's `sorted(items, key=lambda x: x[1], reverse=True)`: a stable
descending sort by count, modelled by stable insertion sort. -/
def sortByCountDesc (l : List (Char × Nat)) : List (Char × Nat) :=
  List.insertionSort countGE l

/-- The session state of `TypingTest.__init__`. -/
structure TypingTest where
  text : List Char
  words : List (List Char)
  start_time : Option ℚ
  end_time : Option ℚ
  user_input : List Char
  total_keystrokes : ℤ
  correct_keystrokes : ℤ
  incorrect_keystrokes : ℤ
  current_word_index : Nat
  current_word_input : List Char
  completed_words : List (List Char)
  key_errors : List (Char × Nat)
  deriving Repr, DecidableEq

/-- `TypingTest(text)`: split the text into words, zero all counters. -/
def mkTypingTest (text : List Char) : TypingTest :=
  { text := text
    words := pySplit text
    start_time := none
    end_time := none
    user_input := []
    total_keystrokes := 0
    correct_keystrokes := 0
    incorrect_keystrokes := 0
    current_word_index := 0
    current_word_input := []
    completed_words := []
    key_errors := [] }

/-- `start()`: record the clock as `start_time`. -/
def start (s : TypingTest) (now : ℚ) : TypingTest :=
  { s with start_time := some now }

/-- `finish()`: record the clock as `end_time`. -/
def finish (s : TypingTest) (now : ℚ) : TypingTest :=
  { s with end_time := some now }

/-- `get_duration()`: `end_time - start_time` when both are truthy, else 0. -/
def get_duration (s : TypingTest) : ℚ :=
  if optTruthy s.start_time && optTruthy s.end_time then
    s.end_time.getD 0 - s.start_time.getD 0
  else 0

/-- `get_current_word()`: the reference word at `current_word_index`, or the
empty string when the index is past the end. -/
def get_current_word (s : TypingTest) : List Char :=
  if h : s.current_word_index < s.words.length then
    s.words.get ⟨s.current_word_index, h⟩
  else []

/-- `is_current_word_correct()`. -/
def is_current_word_correct (s : TypingTest) : Bool :=
  s.current_word_input == get_current_word s

/-- `can_add_space()`. -/
def can_add_space (s : TypingTest) : Bool :=
  is_current_word_correct s

/-- Result dictionary of `process_keystroke`. -/
structure KeyResult where
  accepted : Bool
  error : Bool
  deriving Repr, DecidableEq

/-- `process_keystroke(char, is_backspace)`: returns the result dictionary
and the updated session state.  `char` is a Python string (possibly empty). -/
def process_keystroke (s : TypingTest) (char : List Char)
    (is_backspace : Bool) : KeyResult × TypingTest :=
  if is_backspace then
    if 0 < s.current_word_input.length then
      (⟨true, false⟩, { s with current_word_input := s.current_word_input.dropLast })
    else
      (⟨true, false⟩, s)
  else if char = [' '] then
    if can_add_space s then
      (⟨true, false⟩,
        { s with
          completed_words := s.completed_words ++ [s.current_word_input]
          current_word_index := s.current_word_index + 1
          current_word_input := []
          total_keystrokes := s.total_keystrokes + 1
          correct_keystrokes := s.correct_keystrokes + 1 })
    else
      (⟨false, true⟩, s)
  else
    let current_word := get_current_word s
    let current_pos := s.current_word_input.length
    if h : current_pos < current_word.length then
      let expected_char := current_word.get ⟨current_pos, h⟩
      let is_correct := char = [expected_char]
      if is_correct then
        (⟨true, false⟩,
          { s with
            current_word_input := s.current_word_input ++ char
            total_keystrokes := s.total_keystrokes + 1
            correct_keystrokes := s.correct_keystrokes + 1 })
      else
        (⟨true, true⟩,
          { s with
            current_word_input := s.current_word_input ++ char
            total_keystrokes := s.total_keystrokes + 1
            incorrect_keystrokes := s.incorrect_keystrokes + 1
            key_errors := bumpKey s.key_errors expected_char })
    else
      (⟨false, true⟩, s)

/-- `get_full_typed_text()`. -/
def get_full_typed_text (s : TypingTest) : List Char :=
  if s.completed_words ≠ [] then
    joinSpace s.completed_words ++ ' ' :: s.current_word_input
  else s.current_word_input

/-- `calculate_wpm()`. -/
def calculate_wpm (s : TypingTest) : ℚ :=
  let duration := get_duration s
  if duration = 0 then 0
  else
    let characters : ℚ := (s.correct_keystrokes : ℚ)
    let words := characters / 5
    let minutes := duration / 60
    if 0 < minutes then round1 (words / minutes) else 0

/-- `calculate_accuracy()`. -/
def calculate_accuracy (s : TypingTest) : ℚ :=
  if s.total_keystrokes = 0 then 100
  else round1 ((s.correct_keystrokes : ℚ) / (s.total_keystrokes : ℚ) * 100)

/-- `get_top_missed_keys()`: sort the error dict by count descending, take 3. -/
def get_top_missed_keys (s : TypingTest) : List (Char × Nat) :=
  (sortByCountDesc s.key_errors).take 3

/-- The dictionary returned by `calculate_scores()`. -/
structure Scores where
  wpm : ℚ
  accuracy : ℚ
  speed_score : ℤ
  accuracy_score : ℤ
  overall_score : ℤ
  duration : ℚ
  total_keystrokes : ℤ
  correct_keystrokes : ℤ
  incorrect_keystrokes : ℤ
  top_missed_keys : List (Char × Nat)
  deriving Repr, DecidableEq

/-- `calculate_scores()`. -/
def calculate_scores (s : TypingTest) : Scores :=
  let wpm := calculate_wpm s
  let accuracy := calculate_accuracy s
  let speed_score := min 100 (pyRound wpm)
  let accuracy_score := pyRound accuracy
  let overall_score := pyRound (((speed_score : ℚ) + (accuracy_score : ℚ)) / 2)
  { wpm := wpm
    accuracy := accuracy
    speed_score := speed_score
    accuracy_score := accuracy_score
    overall_score := overall_score
    duration := round1 (get_duration s)
    total_keystrokes := s.total_keystrokes
    correct_keystrokes := s.correct_keystrokes
    incorrect_keystrokes := s.incorrect_keystrokes
    top_missed_keys := get_top_missed_keys s }

/-- `get_errors_count()`. -/
def get_errors_count (s : TypingTest) : ℤ :=
  s.incorrect_keystrokes

/-- The dictionary returned by `get_current_stats()`. -/
structure LiveStats where
  elapsed_time : ℚ
  current_wpm : ℚ
  current_accuracy : ℚ
  errors : ℤ
  current_word : List Char
  current_word_input : List Char
  words_completed : Nat
  total_words : Nat
  deriving Repr, DecidableEq

/-- `get_current_stats()`, with the wall clock passed in as `now`. -/
def get_current_stats (s : TypingTest) (now : ℚ) : LiveStats :=
  if !optTruthy s.start_time then
    { elapsed_time := 0
      current_wpm := 0
      current_accuracy := 100
      errors := 0
      current_word := get_current_word s
      current_word_input := s.current_word_input
      words_completed := s.completed_words.length
      total_words := s.words.length }
  else
    let elapsed := now - s.start_time.getD 0
    let current_wpm :=
      if 0 < elapsed then
        let characters : ℚ := (s.correct_keystrokes : ℚ)
        let words := characters / 5
        let minutes := elapsed / 60
        if 0 < minutes then round1 (words / minutes) else 0
      else 0
    { elapsed_time := round1 elapsed
      current_wpm := current_wpm
      current_accuracy := calculate_accuracy s
      errors := s.incorrect_keystrokes
      current_word := get_current_word s
      current_word_input := s.current_word_input
      words_completed := s.completed_words.length
      total_words := s.words.length }

/-- `is_test_complete()`. -/
def is_test_complete (s : TypingTest) : Bool :=
  s.words.length ≤ s.current_word_index

/-- One keystroke event, as fed by the presentation layer: the character
string and the backspace flag. -/
abbrev Ev := List Char × Bool

/-- Apply one event to the session, keeping the updated state. -/
def stepEv (s : TypingTest) (ev : Ev) : TypingTest :=
  (process_keystroke s ev.1 ev.2).2

/-- Apply a sequence of events in order. -/
def runEvents (s : TypingTest) (evs : List Ev) : TypingTest :=
  evs.foldl stepEv s

/-- Counter bookkeeping invariant maintained by every keystroke: the total
is the sum of correct and incorrect, and the summands are non-negative. -/
def counterInv (s : TypingTest) : Prop :=
  s.total_keystrokes = s.correct_keystrokes + s.incorrect_keystrokes ∧
    0 ≤ s.correct_keystrokes ∧ 0 ≤ s.incorrect_keystrokes

/-!
Method-call translations of the query operations: each Python method is
translated line-by-line in state-passing style (the returned state is the
state of `self` after the call), so that the frame effect of each call is a
provable statement rather than a modelling assumption.  Calls to other
methods thread the state through the callee.
-/

/-- Method call `self.get_duration()`. -/
def get_duration_m (s : TypingTest) : ℚ × TypingTest :=
  if optTruthy s.start_time && optTruthy s.end_time then
    (s.end_time.getD 0 - s.start_time.getD 0, s)
  else (0, s)

/-- Method call `self.get_current_word()`. -/
def get_current_word_m (s : TypingTest) : List Char × TypingTest :=
  if h : s.current_word_index < s.words.length then
    (s.words.get ⟨s.current_word_index, h⟩, s)
  else ([], s)

/-- Method call `self.get_full_typed_text()`. -/
def get_full_typed_text_m (s : TypingTest) : List Char × TypingTest :=
  if s.completed_words ≠ [] then
    (joinSpace s.completed_words ++ ' ' :: s.current_word_input, s)
  else (s.current_word_input, s)

/-- Method call `self.calculate_wpm()`. -/
def calculate_wpm_m (s : TypingTest) : ℚ × TypingTest :=
  let d := get_duration_m s
  let s1 := d.2
  if d.1 = 0 then (0, s1)
  else
    let characters : ℚ := (s1.correct_keystrokes : ℚ)
    let words := characters / 5
    let minutes := d.1 / 60
    if 0 < minutes then (round1 (words / minutes), s1) else (0, s1)

/-- Method call `self.calculate_accuracy()`. -/
def calculate_accuracy_m (s : TypingTest) : ℚ × TypingTest :=
  if s.total_keystrokes = 0 then (100, s)
  else (round1 ((s.correct_keystrokes : ℚ) / (s.total_keystrokes : ℚ) * 100), s)

/-- Method call `self.get_top_missed_keys()`. -/
def get_top_missed_keys_m (s : TypingTest) : List (Char × Nat) × TypingTest :=
  ((sortByCountDesc s.key_errors).take 3, s)

/-- Method call `self.calculate_scores()`, threading state through the
nested method calls. -/
def calculate_scores_m (s : TypingTest) : Scores × TypingTest :=
  let w := calculate_wpm_m s
  let a := calculate_accuracy_m w.2
  let speed_score := min 100 (pyRound w.1)
  let accuracy_score := pyRound a.1
  let overall_score := pyRound (((speed_score : ℚ) + (accuracy_score : ℚ)) / 2)
  let d := get_duration_m a.2
  let t := get_top_missed_keys_m d.2
  ({ wpm := w.1
     accuracy := a.1
     speed_score := speed_score
     accuracy_score := accuracy_score
     overall_score := overall_score
     duration := round1 d.1
     total_keystrokes := t.2.total_keystrokes
     correct_keystrokes := t.2.correct_keystrokes
     incorrect_keystrokes := t.2.incorrect_keystrokes
     top_missed_keys := t.1 }, t.2)

/-- Method call `self.get_errors_count()`. -/
def get_errors_count_m (s : TypingTest) : ℤ × TypingTest :=
  (s.incorrect_keystrokes, s)

/-- Method call `self.get_current_stats()`, with the wall clock passed in. -/
def get_current_stats_m (s : TypingTest) (now : ℚ) : LiveStats × TypingTest :=
  if !optTruthy s.start_time then
    let w := get_current_word_m s
    ({ elapsed_time := 0
       current_wpm := 0
       current_accuracy := 100
       errors := 0
       current_word := w.1
       current_word_input := w.2.current_word_input
       words_completed := w.2.completed_words.length
       total_words := w.2.words.length }, w.2)
  else
    let elapsed := now - s.start_time.getD 0
    let current_wpm :=
      if 0 < elapsed then
        let characters : ℚ := (s.correct_keystrokes : ℚ)
        let words := characters / 5
        let minutes := elapsed / 60
        if 0 < minutes then round1 (words / minutes) else 0
      else 0
    let a := calculate_accuracy_m s
    let w := get_current_word_m a.2
    ({ elapsed_time := round1 elapsed
       current_wpm := current_wpm
       current_accuracy := a.1
       errors := w.2.incorrect_keystrokes
       current_word := w.1
       current_word_input := w.2.current_word_input
       words_completed := w.2.completed_words.length
       total_words := w.2.words.length }, w.2)

/-- Method call `self.is_test_complete()`. -/
def is_test_complete_m (s : TypingTest) : Bool × TypingTest :=
  (decide (s.words.length ≤ s.current_word_index), s)

/-- C1: a space keystroke (`char = " "`, not a backspace) is accepted iff
`current_word_input` equals the current reference word; on acceptance the
typed word is appended to `completed_words`, `current_word_index` advances
by 1, the input buffer is cleared, and `total_keystrokes` and
`correct_keystrokes` each grow by 1, with result `{accepted: true,
error: false}`; on rejection the result is `{accepted: false, error: true}`
and the session is unchanged. -/
theorem space_keystroke_spec (s : TypingTest) :
    ((process_keystroke s [' '] false).1.accepted = true ↔
      s.current_word_input = get_current_word s) ∧
    (s.current_word_input = get_current_word s →
      process_keystroke s [' '] false =
        (⟨true, false⟩,
         { s with
            completed_words := s.completed_words ++ [s.current_word_input]
            current_word_index := s.current_word_index + 1
            current_word_input := []
            total_keystrokes := s.total_keystrokes + 1
            correct_keystrokes := s.correct_keystrokes + 1 })) ∧
    (s.current_word_input ≠ get_current_word s →
      process_keystroke s [' '] false = (⟨false, true⟩, s)) := by
  unfold process_keystroke can_add_space is_current_word_correct
  by_cases h : s.current_word_input = get_current_word s <;>
    simp [h]

/-- Witness for C1: after typing `h`,`i` against reference text `"hi"` the
space is accepted and advances the word; on the fresh session the space is
rejected and the state is unchanged. -/
theorem space_keystroke_spec_witness :
    ((runEvents (mkTypingTest ['h', 'i']) [(['h'], false), (['i'], false)]).current_word_input
        = get_current_word (runEvents (mkTypingTest ['h', 'i']) [(['h'], false), (['i'], false)]) ∧
      process_keystroke (runEvents (mkTypingTest ['h', 'i']) [(['h'], false), (['i'], false)]) [' '] false =
        (⟨true, false⟩,
         { runEvents (mkTypingTest ['h', 'i']) [(['h'], false), (['i'], false)] with
            completed_words :=
              (runEvents (mkTypingTest ['h', 'i']) [(['h'], false), (['i'], false)]).completed_words
                ++ [(runEvents (mkTypingTest ['h', 'i']) [(['h'], false), (['i'], false)]).current_word_input]
            current_word_index :=
              (runEvents (mkTypingTest ['h', 'i']) [(['h'], false), (['i'], false)]).current_word_index + 1
            current_word_input := []
            total_keystrokes :=
              (runEvents (mkTypingTest ['h', 'i']) [(['h'], false), (['i'], false)]).total_keystrokes + 1
            correct_keystrokes :=
              (runEvents (mkTypingTest ['h', 'i']) [(['h'], false), (['i'], false)]).correct_keystrokes + 1 })) ∧
    ((mkTypingTest ['h', 'i']).current_word_input ≠ get_current_word (mkTypingTest ['h', 'i']) ∧
      process_keystroke (mkTypingTest ['h', 'i']) [' '] false = (⟨false, true⟩, mkTypingTest ['h', 'i'])) :=
  ⟨⟨by decide,
    (space_keystroke_spec (runEvents (mkTypingTest ['h', 'i']) [(['h'], false), (['i'], false)])).2.1
      (by decide)⟩,
   ⟨by decide, (space_keystroke_spec (mkTypingTest ['h', 'i'])).2.2 (by decide)⟩⟩

/-- C5: a backspace keystroke is always accepted with `{accepted: true,
error: false}`; it drops the last character of `current_word_input` (a
no-op on an empty buffer), never changes the three keystroke counters,
never decreases `current_word_index`, and never modifies
`completed_words`. -/
theorem backspace_spec (s : TypingTest) (char : List Char) :
    process_keystroke s char true =
      (⟨true, false⟩, { s with current_word_input := s.current_word_input.dropLast }) ∧
    (s.current_word_input = [] → (process_keystroke s char true).2 = s) ∧
    (process_keystroke s char true).2.total_keystrokes = s.total_keystrokes ∧
    (process_keystroke s char true).2.correct_keystrokes = s.correct_keystrokes ∧
    (process_keystroke s char true).2.incorrect_keystrokes = s.incorrect_keystrokes ∧
    (process_keystroke s char true).2.current_word_index = s.current_word_index ∧
    (process_keystroke s char true).2.completed_words = s.completed_words := by
  obtain ⟨tx, ws, st, et, ui, tk, ck, ik, ci, cw, cwds, ke⟩ := s
  have hmain : process_keystroke ⟨tx, ws, st, et, ui, tk, ck, ik, ci, cw, cwds, ke⟩ char true =
      (⟨true, false⟩, ⟨tx, ws, st, et, ui, tk, ck, ik, ci, cw.dropLast, cwds, ke⟩) := by
    unfold process_keystroke
    rcases cw with _ | ⟨c, cs⟩ <;> simp
  refine ⟨hmain, ?_, ?_, ?_, ?_, ?_, ?_⟩ <;> rw [hmain] <;> intros <;> simp_all

/-- Witness for C5: on a session whose buffer is empty, backspace is a
complete no-op. -/
theorem backspace_spec_witness :
    (mkTypingTest ['h', 'i']).current_word_input = [] ∧
    (process_keystroke (mkTypingTest ['h', 'i']) [] true).2 = mkTypingTest ['h', 'i'] :=
  ⟨by decide, (backspace_spec (mkTypingTest ['h', 'i']) []).2.1 (by decide)⟩

/-- Helper: incrementing a key in the error dictionary raises exactly that
key's looked-up count by one. -/
theorem lookupKey_bumpKey (m : List (Char × Nat)) (c : Char) :
    lookupKey (bumpKey m c) c = lookupKey m c + 1 := by
  induction m with
  | nil => simp [bumpKey, lookupKey]
  | cons kv rest ih =>
    obtain ⟨k, v⟩ := kv
    by_cases h : k = c <;> simp [bumpKey, lookupKey, h, ih]

/-- Helper: each keystroke preserves the counter invariant. -/
theorem counterInv_step (s : TypingTest) (ev : Ev) (h : counterInv s) :
    counterInv (stepEv s ev) := by
  obtain ⟨h1, h2, h3⟩ := h
  obtain ⟨char, bs⟩ := ev
  unfold stepEv process_keystroke
  dsimp only
  split <;> (try split) <;> (try split) <;> (try split) <;>
    exact ⟨by simpa using by omega, by simpa using by omega, by simpa using by omega⟩

/-- Helper: the counter invariant holds after any event sequence from an
invariant-satisfying state. -/
theorem counterInv_runEvents (s : TypingTest) (evs : List Ev) (h : counterInv s) :
    counterInv (runEvents s evs) := by
  induction evs generalizing s with
  | nil => exact h
  | cons ev rest ih => exact ih _ (counterInv_step s ev h)

/-- Helper: a rejected keystroke leaves the whole session state unchanged. -/
theorem rejected_no_mutation (t : TypingTest) (char : List Char) (bs : Bool)
    (h : (process_keystroke t char bs).1.accepted = false) :
    (process_keystroke t char bs).2 = t := by
  unfold process_keystroke at h ⊢
  dsimp only at h ⊢
  split at h
  · split at h <;> simp_all
  · split at h
    · split at h <;> simp_all
    · split at h
      · split at h <;> simp_all
      · simp_all [dif_neg]

/-- C2: for every session created from any reference text and every event
sequence, `total_keystrokes = correct_keystrokes + incorrect_keystrokes`
holds after each call and all three counters are non-negative; moreover a
rejected keystroke or a backspace changes none of the three counters. -/
theorem counters_invariant (text : List Char) (evs : List Ev) :
    ((runEvents (mkTypingTest text) evs).total_keystrokes =
        (runEvents (mkTypingTest text) evs).correct_keystrokes +
          (runEvents (mkTypingTest text) evs).incorrect_keystrokes ∧
      0 ≤ (runEvents (mkTypingTest text) evs).total_keystrokes ∧
      0 ≤ (runEvents (mkTypingTest text) evs).correct_keystrokes ∧
      0 ≤ (runEvents (mkTypingTest text) evs).incorrect_keystrokes) ∧
    ∀ (t : TypingTest) (char : List Char) (bs : Bool),
      ((process_keystroke t char bs).1.accepted = false ∨ bs = true) →
        (process_keystroke t char bs).2.total_keystrokes = t.total_keystrokes ∧
        (process_keystroke t char bs).2.correct_keystrokes = t.correct_keystrokes ∧
        (process_keystroke t char bs).2.incorrect_keystrokes = t.incorrect_keystrokes := by
  constructor
  · have h0 : counterInv (mkTypingTest text) := by
      refine ⟨rfl, le_refl 0, le_refl 0⟩
    obtain ⟨h1, h2, h3⟩ := counterInv_runEvents (mkTypingTest text) evs h0
    exact ⟨h1, by omega, h2, h3⟩
  · intro t char bs hrej
    rcases hrej with hrej | hrej
    · have hs := rejected_no_mutation t char bs hrej
      rw [hs]
      exact ⟨rfl, rfl, rfl⟩
    · subst hrej
      refine ⟨?_, ?_, ?_⟩ <;>
        · unfold process_keystroke
          rw [if_pos rfl]
          split <;> rfl

/-- Witness for C2: on a fresh session for `"a"`, a premature space is
rejected and leaves all three counters unchanged. -/
theorem counters_invariant_witness :
    ((process_keystroke (mkTypingTest ['a']) [' '] false).1.accepted = false ∨ false = true) ∧
    ((process_keystroke (mkTypingTest ['a']) [' '] false).2.total_keystrokes =
        (mkTypingTest ['a']).total_keystrokes ∧
      (process_keystroke (mkTypingTest ['a']) [' '] false).2.correct_keystrokes =
        (mkTypingTest ['a']).correct_keystrokes ∧
      (process_keystroke (mkTypingTest ['a']) [' '] false).2.incorrect_keystrokes =
        (mkTypingTest ['a']).incorrect_keystrokes) :=
  ⟨Or.inl (by decide),
   (counters_invariant ['a'] []).2 (mkTypingTest ['a']) [' '] false (Or.inl (by decide))⟩

/-- C3: a regular character keystroke (single non-space character) is
rejected with `{accepted: false, error: true}` and mutates nothing iff the
buffer has already reached the reference word's length; otherwise the
character is appended whether or not it matches, `total_keystrokes` grows
by exactly 1, a match increments `correct_keystrokes`, and a mismatch
increments `incorrect_keystrokes` and bumps `key_errors` at the expected
character, returning `{accepted: true, error: not matched}`. -/
theorem regular_char_spec (s : TypingTest) (c : Char) (hc : c ≠ ' ') :
    ((get_current_word s).length ≤ s.current_word_input.length →
      process_keystroke s [c] false = (⟨false, true⟩, s)) ∧
    ∀ h : s.current_word_input.length < (get_current_word s).length,
      (c = (get_current_word s).get ⟨s.current_word_input.length, h⟩ →
        process_keystroke s [c] false =
          (⟨true, false⟩,
           { s with
              current_word_input := s.current_word_input ++ [c]
              total_keystrokes := s.total_keystrokes + 1
              correct_keystrokes := s.correct_keystrokes + 1 })) ∧
      (c ≠ (get_current_word s).get ⟨s.current_word_input.length, h⟩ →
        process_keystroke s [c] false =
          (⟨true, true⟩,
           { s with
              current_word_input := s.current_word_input ++ [c]
              total_keystrokes := s.total_keystrokes + 1
              incorrect_keystrokes := s.incorrect_keystrokes + 1
              key_errors :=
                bumpKey s.key_errors
                  ((get_current_word s).get ⟨s.current_word_input.length, h⟩) }) ∧
        lookupKey
            (bumpKey s.key_errors
              ((get_current_word s).get ⟨s.current_word_input.length, h⟩))
            ((get_current_word s).get ⟨s.current_word_input.length, h⟩) =
          lookupKey s.key_errors
              ((get_current_word s).get ⟨s.current_word_input.length, h⟩) + 1) := by
  have hch : ¬([c] = [' ']) := by simpa using hc
  constructor
  · intro hle
    unfold process_keystroke
    rw [if_neg (by simp), if_neg hch, dif_neg (by omega)]
  · intro h
    constructor
    · intro hceq
      unfold process_keystroke
      rw [if_neg (by simp), if_neg hch, dif_pos h]
      simp only [← hceq]
      rw [if_pos trivial]
    · intro hcne
      refine ⟨?_, lookupKey_bumpKey _ _⟩
      unfold process_keystroke
      rw [if_neg (by simp), if_neg hch, dif_pos h]
      rw [if_neg (by simpa using hcne)]

/-- Witness for C3: against reference text `"ab"`, the matching character
`a` is accepted as correct, the mismatching character `x` is accepted as an
error and bumps the expected key `a`, and a third character after `a`,`b`
is rejected unchanged. -/
theorem regular_char_spec_witness :
    ((runEvents (mkTypingTest ['a', 'b']) [(['a'], false), (['b'], false)]).current_word_input.length <
        (get_current_word (runEvents (mkTypingTest ['a', 'b']) [(['a'], false), (['b'], false)])).length → False) ∧
    (process_keystroke (runEvents (mkTypingTest ['a', 'b']) [(['a'], false), (['b'], false)]) ['z'] false =
      (⟨false, true⟩, runEvents (mkTypingTest ['a', 'b']) [(['a'], false), (['b'], false)])) ∧
    (process_keystroke (mkTypingTest ['a', 'b']) ['a'] false =
      (⟨true, false⟩,
       { mkTypingTest ['a', 'b'] with
          current_word_input := ['a']
          total_keystrokes := 1
          correct_keystrokes := 1 })) ∧
    (process_keystroke (mkTypingTest ['a', 'b']) ['x'] false =
      (⟨true, true⟩,
       { mkTypingTest ['a', 'b'] with
          current_word_input := ['x']
          total_keystrokes := 1
          incorrect_keystrokes := 1
          key_errors := [('a', 1)] }) ∧
      lookupKey [('a', 1)] 'a' = lookupKey [] 'a' + 1) :=
  ⟨by decide,
   (regular_char_spec (runEvents (mkTypingTest ['a', 'b']) [(['a'], false), (['b'], false)]) 'z'
      (by decide)).1 (by decide),
   (regular_char_spec (mkTypingTest ['a', 'b']) 'a' (by decide)).2 (by decide) |>.1 (by decide),
   (regular_char_spec (mkTypingTest ['a', 'b']) 'x' (by decide)).2 (by decide) |>.2 (by decide)⟩

/-- Counterexample to C4: on reference text `"a"`, typing `a`, space, space
drives `current_word_index` to 2 while there is only 1 reference word, so
the invariant `current_word_index ≤ len(referenceWords)` fails and the test
is complete at an index different from `len(referenceWords)`: after
completion the empty buffer equals the guarded empty current word, so a
space is accepted again. -/
theorem word_index_bound_cex :
    (runEvents (mkTypingTest ['a']) [(['a'], false), ([' '], false), ([' '], false)]).current_word_index = 2 ∧
    (runEvents (mkTypingTest ['a']) [(['a'], false), ([' '], false), ([' '], false)]).words.length = 1 ∧
    ¬((runEvents (mkTypingTest ['a']) [(['a'], false), ([' '], false), ([' '], false)]).current_word_index ≤
        (runEvents (mkTypingTest ['a']) [(['a'], false), ([' '], false), ([' '], false)]).words.length) ∧
    is_test_complete (runEvents (mkTypingTest ['a']) [(['a'], false), ([' '], false), ([' '], false)]) = true ∧
    (runEvents (mkTypingTest ['a']) [(['a'], false), ([' '], false), ([' '], false)]).current_word_index ≠
      (runEvents (mkTypingTest ['a']) [(['a'], false), ([' '], false), ([' '], false)]).words.length := by
  decide

/-- C4 (amended): processing a keystroke while the test is not yet complete
keeps `current_word_index ≤ len(referenceWords)`; `referenceWords` is never
changed; the session is complete exactly when
`current_word_index ≥ len(referenceWords)` (the index can exceed the length
via spaces typed after completion); and completeness is permanent. -/
theorem word_index_bound_amended (s : TypingTest) (char : List Char) (bs : Bool) :
    (is_test_complete s = false →
      (process_keystroke s char bs).2.current_word_index ≤ s.words.length) ∧
    (process_keystroke s char bs).2.words = s.words ∧
    (is_test_complete s = true ↔ s.words.length ≤ s.current_word_index) ∧
    (is_test_complete s = true →
      is_test_complete (process_keystroke s char bs).2 = true) := by
  have hw : (process_keystroke s char bs).2.words = s.words := by
    unfold process_keystroke
    dsimp only
    split
    · split <;> rfl
    · split
      · split <;> rfl
      · split
        · split <;> rfl
        · rfl
  have hidx : (process_keystroke s char bs).2.current_word_index = s.current_word_index ∨
      (process_keystroke s char bs).2.current_word_index = s.current_word_index + 1 := by
    unfold process_keystroke
    dsimp only
    split
    · split <;> exact Or.inl rfl
    · split
      · split
        · exact Or.inr rfl
        · exact Or.inl rfl
      · split
        · split <;> exact Or.inl rfl
        · exact Or.inl rfl
  refine ⟨?_, hw, by simp [is_test_complete], ?_⟩
  · intro hfalse
    have hlt : s.current_word_index < s.words.length := by
      simpa [is_test_complete] using hfalse
    rcases hidx with h | h <;> omega
  · intro htrue
    have hle : s.words.length ≤ s.current_word_index := by
      simpa [is_test_complete] using htrue
    have : (process_keystroke s char bs).2.words.length ≤
        (process_keystroke s char bs).2.current_word_index := by
      rw [hw]
      rcases hidx with h | h <;> omega
    simpa [is_test_complete] using this

/-- Witness for C4 (amended): on the fresh session for `"a"` (incomplete) a
typed `a` keeps the index within bounds, and on the completed session the
completeness bit stays set after one more space. -/
theorem word_index_bound_amended_witness :
    (is_test_complete (mkTypingTest ['a']) = false ∧
      (process_keystroke (mkTypingTest ['a']) [' '] false).2.current_word_index ≤
        (mkTypingTest ['a']).words.length) ∧
    (is_test_complete (runEvents (mkTypingTest ['a']) [(['a'], false), ([' '], false)]) = true ∧
      is_test_complete
        (process_keystroke (runEvents (mkTypingTest ['a']) [(['a'], false), ([' '], false)]) [' '] false).2 =
        true) :=
  ⟨⟨by decide, (word_index_bound_amended (mkTypingTest ['a']) [' '] false).1 (by decide)⟩,
   ⟨by decide,
    (word_index_bound_amended (runEvents (mkTypingTest ['a']) [(['a'], false), ([' '], false)]) [' '] false).2.2.2
      (by decide)⟩⟩

/-- C6: `calculate_accuracy()` returns exactly 100.0 when
`total_keystrokes = 0`, and otherwise
`round(correct_keystrokes / total_keystrokes * 100, 1)`. -/
theorem accuracy_spec (s : TypingTest) :
    (s.total_keystrokes = 0 → calculate_accuracy s = 100) ∧
    (s.total_keystrokes ≠ 0 →
      calculate_accuracy s =
        round1 ((s.correct_keystrokes : ℚ) / (s.total_keystrokes : ℚ) * 100)) := by
  unfold calculate_accuracy
  constructor <;> intro h <;> simp [h]

/-- Witness for C6: the fresh session reports 100.0; after one correct
keystroke the formula value is reported. -/
theorem accuracy_spec_witness :
    ((mkTypingTest ['a']).total_keystrokes = 0 ∧ calculate_accuracy (mkTypingTest ['a']) = 100) ∧
    ((runEvents (mkTypingTest ['a']) [(['a'], false)]).total_keystrokes ≠ 0 ∧
      calculate_accuracy (runEvents (mkTypingTest ['a']) [(['a'], false)]) =
        round1 (((runEvents (mkTypingTest ['a']) [(['a'], false)]).correct_keystrokes : ℚ) /
            ((runEvents (mkTypingTest ['a']) [(['a'], false)]).total_keystrokes : ℚ) * 100)) :=
  ⟨⟨by decide, (accuracy_spec (mkTypingTest ['a'])).1 (by decide)⟩,
   ⟨by decide, (accuracy_spec (runEvents (mkTypingTest ['a']) [(['a'], false)])).2 (by decide)⟩⟩

/-- C7: `calculate_wpm()` returns 0 whenever the elapsed duration is ≤ 0
(in particular it performs no division when the duration is 0), otherwise
`round((correct_keystrokes / 5) / (duration / 60), 1)`; and
`get_duration()` returns 0 unless both `start_time` and `end_time` are
set. -/
theorem wpm_spec (s : TypingTest) :
    (get_duration s ≤ 0 → calculate_wpm s = 0) ∧
    (0 < get_duration s →
      calculate_wpm s =
        round1 (((s.correct_keystrokes : ℚ) / 5) / (get_duration s / 60))) ∧
    ((s.start_time = none ∨ s.end_time = none) → get_duration s = 0) := by
  refine ⟨?_, ?_, ?_⟩
  · intro hle
    unfold calculate_wpm
    dsimp only
    by_cases hd : get_duration s = 0
    · rw [if_pos hd]
    · rw [if_neg hd]
      have hneg : get_duration s < 0 := lt_of_le_of_ne hle hd
      rw [if_neg (by
        push_neg
        exact div_nonpos_iff.mpr (Or.inr ⟨hneg.le, by norm_num⟩))]
  · intro hpos
    unfold calculate_wpm
    dsimp only
    rw [if_neg (ne_of_gt hpos), if_pos (by positivity)]
  · intro h
    rcases h with h | h <;> simp [get_duration, optTruthy, h]

/-- Witness for C7: the fresh session has duration 0 and WPM 0; a session
started at t=1 and finished at t=61 has positive duration and reports the
rounded formula value. -/
theorem wpm_spec_witness :
    (get_duration (mkTypingTest ['a']) ≤ 0 ∧ calculate_wpm (mkTypingTest ['a']) = 0) ∧
    (0 < get_duration (finish (start (mkTypingTest ['a']) 1) 61) ∧
      calculate_wpm (finish (start (mkTypingTest ['a']) 1) 61) =
        round1 ((((finish (start (mkTypingTest ['a']) 1) 61).correct_keystrokes : ℚ) / 5) /
            (get_duration (finish (start (mkTypingTest ['a']) 1) 61) / 60))) ∧
    (((mkTypingTest ['a']).start_time = none ∨ (mkTypingTest ['a']).end_time = none) ∧
      get_duration (mkTypingTest ['a']) = 0) :=
  ⟨⟨by norm_num [get_duration, optTruthy, mkTypingTest],
    (wpm_spec (mkTypingTest ['a'])).1 (by norm_num [get_duration, optTruthy, mkTypingTest])⟩,
   ⟨by norm_num [get_duration, optTruthy, start, finish, mkTypingTest],
    (wpm_spec (finish (start (mkTypingTest ['a']) 1) 61)).2.1
      (by norm_num [get_duration, optTruthy, start, finish, mkTypingTest])⟩,
   ⟨Or.inl rfl, (wpm_spec (mkTypingTest ['a'])).2.2 (Or.inl rfl)⟩⟩

/-- C8: `calculate_scores()` composes the documented formulas
(`speed_score = min(100, round(wpm))`, `accuracy_score = round(accuracy)`,
`overall_score = round((speed + accuracy) / 2)`, duration rounded to one
decimal, raw counters passed through), and `top_missed_keys` is the first
3 entries of `key_errors` sorted by count descending: it is sorted
descending, drawn from `key_errors`, dominates every entry left out, and
on the spec's example dictionary equals `[(a,5), (e,3), (o,2)]`. -/
theorem scores_spec (s : TypingTest) :
    calculate_scores s =
      { wpm := calculate_wpm s
        accuracy := calculate_accuracy s
        speed_score := min 100 (pyRound (calculate_wpm s))
        accuracy_score := pyRound (calculate_accuracy s)
        overall_score :=
          pyRound ((((min 100 (pyRound (calculate_wpm s)) : ℤ) : ℚ) +
              ((pyRound (calculate_accuracy s) : ℤ) : ℚ)) / 2)
        duration := round1 (get_duration s)
        total_keystrokes := s.total_keystrokes
        correct_keystrokes := s.correct_keystrokes
        incorrect_keystrokes := s.incorrect_keystrokes
        top_missed_keys := get_top_missed_keys s } ∧
    get_top_missed_keys s = (sortByCountDesc s.key_errors).take 3 ∧
    List.Pairwise countGE (get_top_missed_keys s) ∧
    (∀ p ∈ get_top_missed_keys s, p ∈ s.key_errors) ∧
    (∀ p ∈ get_top_missed_keys s, ∀ q ∈ s.key_errors,
      q ∉ get_top_missed_keys s → q.2 ≤ p.2) ∧
    get_top_missed_keys
        { mkTypingTest [] with key_errors := [('e', 3), ('a', 5), ('t', 1), ('o', 2)] } =
      [('a', 5), ('e', 3), ('o', 2)] := by
  have hsorted : List.Pairwise countGE (sortByCountDesc s.key_errors) :=
    List.sorted_insertionSort countGE s.key_errors
  have hperm : List.Perm (sortByCountDesc s.key_errors) s.key_errors :=
    List.perm_insertionSort countGE s.key_errors
  refine ⟨rfl, rfl, ?_, ?_, ?_, by decide⟩
  · exact List.Pairwise.sublist (List.take_sublist 3 _) hsorted
  · intro p hp
    exact hperm.mem_iff.mp (List.Sublist.mem hp (List.take_sublist 3 _))
  · intro p hp q hq hqnot
    have hqL : q ∈ sortByCountDesc s.key_errors := hperm.mem_iff.mpr hq
    have hsplit : (sortByCountDesc s.key_errors).take 3 ++ (sortByCountDesc s.key_errors).drop 3 =
        sortByCountDesc s.key_errors := List.take_append_drop 3 _
    have hpw : List.Pairwise countGE
        ((sortByCountDesc s.key_errors).take 3 ++ (sortByCountDesc s.key_errors).drop 3) := by
      rw [hsplit]; exact hsorted
    rw [List.pairwise_append] at hpw
    have hqdrop : q ∈ (sortByCountDesc s.key_errors).drop 3 := by
      rcases List.mem_append.mp (by rw [hsplit]; exact hqL) with hmem | hmem
      · exact absurd hmem hqnot
      · exact hmem
    exact hpw.2.2 p hp q hqdrop

/-- Witness for C8: on the spec's example dictionary, the entry `(a,5)` is
in the top-3, belongs to `key_errors`, and dominates the left-out entry
`(t,1)`. -/
theorem scores_spec_witness :
    ('a', 5) ∈ get_top_missed_keys
        { mkTypingTest [] with key_errors := [('e', 3), ('a', 5), ('t', 1), ('o', 2)] } ∧
    ('t', 1) ∈ ({ mkTypingTest [] with
        key_errors := [('e', 3), ('a', 5), ('t', 1), ('o', 2)] } : TypingTest).key_errors ∧
    ('t', 1) ∉ get_top_missed_keys
        { mkTypingTest [] with key_errors := [('e', 3), ('a', 5), ('t', 1), ('o', 2)] } ∧
    (('t', 1) : Char × Nat).2 ≤ (('a', 5) : Char × Nat).2 :=
  ⟨by decide, by decide, by decide,
   (scores_spec { mkTypingTest [] with
      key_errors := [('e', 3), ('a', 5), ('t', 1), ('o', 2)] }).2.2.2.2.1
     ('a', 5) (by decide) ('t', 1) (by decide) (by decide)⟩

/-- Counterexample to C9: after completing the test for `"a"`, a further
space keystroke is NOT a no-op rejection: it is accepted and mutates the
session (the index advances and the counters grow). -/
theorem post_completion_cex :
    is_test_complete (runEvents (mkTypingTest ['a']) [(['a'], false), ([' '], false)]) = true ∧
    (process_keystroke (runEvents (mkTypingTest ['a']) [(['a'], false), ([' '], false)]) [' '] false).1.accepted =
      true ∧
    (process_keystroke (runEvents (mkTypingTest ['a']) [(['a'], false), ([' '], false)]) [' '] false).2 ≠
      runEvents (mkTypingTest ['a']) [(['a'], false), ([' '], false)] ∧
    (process_keystroke (runEvents (mkTypingTest ['a']) [(['a'], false), ([' '], false)]) [' '] false).2.current_word_index =
      (runEvents (mkTypingTest ['a']) [(['a'], false), ([' '], false)]).current_word_index + 1 := by
  decide

/-- C9 (amended): `process_keystroke` never reads `referenceWords` out of
range — after completion the guarded current-word read yields `""` — and
never raises; after completion every regular character (and the empty
character) is rejected as a strict no-op and backspace is an accepted
no-op for counters and index, but a space is accepted whenever the buffer
is empty (as in every reachable completed state): it appends `""` to
`completed_words`, advances `current_word_index` past the word count, and
increments `total_keystrokes` and `correct_keystrokes`. -/
theorem post_completion_amended (s : TypingTest) (c : Char) :
    is_test_complete s = true →
      get_current_word s = [] ∧
      (c ≠ ' ' → process_keystroke s [c] false = (⟨false, true⟩, s)) ∧
      process_keystroke s [] false = (⟨false, true⟩, s) ∧
      ((process_keystroke s [c] true).1 = ⟨true, false⟩ ∧
        (process_keystroke s [c] true).2.total_keystrokes = s.total_keystrokes ∧
        (process_keystroke s [c] true).2.current_word_index = s.current_word_index) ∧
      (s.current_word_input = [] →
        process_keystroke s [' '] false =
          (⟨true, false⟩,
           { s with
              completed_words := s.completed_words ++ [[]]
              current_word_index := s.current_word_index + 1
              current_word_input := []
              total_keystrokes := s.total_keystrokes + 1
              correct_keystrokes := s.correct_keystrokes + 1 })) := by
  intro hcomp
  have hle : s.words.length ≤ s.current_word_index := by
    simpa [is_test_complete] using hcomp
  have hword : get_current_word s = [] := by
    unfold get_current_word
    rw [dif_neg (by omega)]
  refine ⟨hword, ?_, ?_, ?_, ?_⟩
  · intro hc
    have := (regular_char_spec s c hc).1
    exact this (by rw [hword]; simp)
  · unfold process_keystroke
    rw [if_neg (by simp), if_neg (by simp), dif_neg (by rw [hword]; simp)]
  · refine ⟨?_, ?_, ?_⟩ <;>
      · unfold process_keystroke
        rw [if_pos rfl]
        split <;> rfl
  · intro hemp
    have hca : can_add_space s = true := by
      simp [can_add_space, is_current_word_correct, hemp, hword]
    unfold process_keystroke
    rw [if_neg (by simp), if_pos rfl, if_pos hca, hemp]

/-- Witness for C9 (amended): on the completed session for `"a"`, the
current word reads as `""`, the character `x` is rejected without mutation,
and the space is accepted, advancing the index. -/
theorem post_completion_amended_witness :
    is_test_complete (runEvents (mkTypingTest ['a']) [(['a'], false), ([' '], false)]) = true ∧
    get_current_word (runEvents (mkTypingTest ['a']) [(['a'], false), ([' '], false)]) = [] ∧
    ('x' ≠ ' ' ∧
      process_keystroke (runEvents (mkTypingTest ['a']) [(['a'], false), ([' '], false)]) ['x'] false =
        (⟨false, true⟩, runEvents (mkTypingTest ['a']) [(['a'], false), ([' '], false)])) ∧
    ((runEvents (mkTypingTest ['a']) [(['a'], false), ([' '], false)]).current_word_input = [] ∧
      process_keystroke (runEvents (mkTypingTest ['a']) [(['a'], false), ([' '], false)]) [' '] false =
        (⟨true, false⟩,
         { runEvents (mkTypingTest ['a']) [(['a'], false), ([' '], false)] with
            completed_words :=
              (runEvents (mkTypingTest ['a']) [(['a'], false), ([' '], false)]).completed_words ++ [[]]
            current_word_index :=
              (runEvents (mkTypingTest ['a']) [(['a'], false), ([' '], false)]).current_word_index + 1
            current_word_input := []
            total_keystrokes :=
              (runEvents (mkTypingTest ['a']) [(['a'], false), ([' '], false)]).total_keystrokes + 1
            correct_keystrokes :=
              (runEvents (mkTypingTest ['a']) [(['a'], false), ([' '], false)]).correct_keystrokes + 1 })) :=
  ⟨by decide,
   (post_completion_amended (runEvents (mkTypingTest ['a']) [(['a'], false), ([' '], false)]) 'x'
      (by decide)).1,
   ⟨by decide,
    (post_completion_amended (runEvents (mkTypingTest ['a']) [(['a'], false), ([' '], false)]) 'x'
       (by decide)).2.1 (by decide)⟩,
   ⟨by decide,
    (post_completion_amended (runEvents (mkTypingTest ['a']) [(['a'], false), ([' '], false)]) 'x'
       (by decide)).2.2.2.2 (by decide)⟩⟩

/-- C10: every query operation (in its state-passing method translation)
returns the session unchanged, so queries may be interleaved freely with
keystroke processing and scoring without affecting them. -/
theorem query_frame (s : TypingTest) (now : ℚ) :
    (get_current_word_m s).2 = s ∧
    (get_duration_m s).2 = s ∧
    (get_full_typed_text_m s).2 = s ∧
    (calculate_wpm_m s).2 = s ∧
    (calculate_accuracy_m s).2 = s ∧
    (calculate_scores_m s).2 = s ∧
    (get_top_missed_keys_m s).2 = s ∧
    (get_errors_count_m s).2 = s ∧
    (get_current_stats_m s now).2 = s ∧
    (is_test_complete_m s).2 = s ∧
    (∀ (char : List Char) (bs : Bool),
      process_keystroke (calculate_scores_m s).2 char bs = process_keystroke s char bs) ∧
    get_current_stats_m (calculate_scores_m s).2 now = get_current_stats_m s now ∧
    calculate_scores_m (get_current_stats_m s now).2 = calculate_scores_m s := by
  have hword : ∀ t : TypingTest, (get_current_word_m t).2 = t := by
    intro t
    unfold get_current_word_m
    split <;> rfl
  have hdur : ∀ t : TypingTest, (get_duration_m t).2 = t := by
    intro t
    unfold get_duration_m
    split <;> rfl
  have hwpm : ∀ t : TypingTest, (calculate_wpm_m t).2 = t := by
    intro t
    unfold calculate_wpm_m
    dsimp only
    split
    · exact hdur t
    · split <;> exact hdur t
  have hacc : ∀ t : TypingTest, (calculate_accuracy_m t).2 = t := by
    intro t
    unfold calculate_accuracy_m
    split <;> rfl
  have hscores : ∀ t : TypingTest, (calculate_scores_m t).2 = t := by
    intro t
    unfold calculate_scores_m
    dsimp only
    unfold get_top_missed_keys_m
    dsimp only
    rw [hdur, hacc, hwpm]
  have hstats : ∀ t : TypingTest, (get_current_stats_m t now).2 = t := by
    intro t
    unfold get_current_stats_m
    dsimp only
    split
    · exact hword t
    · rw [hword, hacc]
  have hfull : (get_full_typed_text_m s).2 = s := by
    unfold get_full_typed_text_m
    split <;> rfl
  refine ⟨hword s, hdur s, hfull, hwpm s, hacc s, hscores s, rfl, rfl, hstats s, rfl,
    ?_, ?_, ?_⟩
  · intro char bs
    rw [hscores]
  · rw [hscores]
  · rw [hstats]
